import Mathlib

/-!
Shallow embedding of `src/muxing.c`: a live MP4 muxing pipeline that polls
pre-encoded H.264 / AAC access units from numbered files (`avc_raw_%03d.h264`,
`aac_raw_%03d.aac`), stamps each with a wall-clock timestamp relative to a
global anchor `begin_timestamp_us`, classifies video units as keyframes by
inspecting byte 4 of the payload, and hands them to the container writer.

Modelling conventions:
* Machine integers are `Nat` with explicit reduction modulo `2 ^ 64` where the
  C code computes in `uint64_t` (the timestamp arithmetic).
* The file system, the wall clock, the container writer's return codes and the
  contents of uninitialised C memory (the stack buffer `buf` beyond the bytes
  `fread` fills, and the never-assigned local `ret` of `write_video_frame`)
  are inputs, packaged in a `World`.
* Each call of `write_video_frame` / `write_audio_frame` and the `main` loop
  produce a list of observable events (polls of the backing store, packet
  submissions, header/trailer writes, `exit` calls), so temporal claims are
  statements about the event trace.
-/

/-- The two media stream kinds handled by the pipeline. -/
inductive Kind
  | video
  | audio
deriving DecidableEq, Repr

/-- One registered output stream: `avformat_new_stream` assigns `index` as the
position in `oc->streams`; `muxing.c:134` sets `st->id = oc->nb_streams - 1`;
`muxing.c:160/174` set the time base (1/44100 for audio, 1/1000000 for video,
since `STREAM_FRAME_RATE = 1000*1000` and the fake AAC codec leaves
`sample_rate = 44100`). -/
structure StreamDesc where
  kind : Kind
  index : Nat
  id : Nat
  tbNum : Nat
  tbDen : Nat
deriving DecidableEq, Repr

/-- Time-base denominator chosen by `add_stream` (`muxing.c:160,174`). -/
def streamTimeBaseDen : Kind → Nat
  | Kind.video => 1000000
  | Kind.audio => 44100

/-- `add_stream` (`muxing.c:83-198`): appends a new stream; its container
index is the number of streams that existed before the call. -/
def addStream (streams : List StreamDesc) (kind : Kind) : List StreamDesc × Nat :=
  (streams ++ [{ kind := kind, index := streams.length, id := streams.length,
                 tbNum := 1, tbDen := streamTimeBaseDen kind }],
   streams.length)

/-- Stream setup in `main` (`muxing.c:386-393`): video is registered first,
then audio (both codec ids are set on `ff_mp4_muxer` at `muxing.c:372-373`,
so both branches run). -/
def setupStreams : List StreamDesc :=
  (addStream (addStream [] Kind.video).1 Kind.audio).1

/-- Container index handed to the video stream at registration. -/
def videoStreamIndex : Nat := (addStream [] Kind.video).2

/-- Container index handed to the audio stream at registration. -/
def audioStreamIndex : Nat := (addStream (addStream [] Kind.video).1 Kind.audio).2

/-- `uint64_t timestamp_us = now_us - begin_timestamp_us` (`muxing.c:238,274`):
unsigned 64-bit subtraction, i.e. subtraction modulo `2 ^ 64`. -/
def elapsedUs (now anchor : Nat) : Nat :=
  (now + (2 ^ 64 - anchor % 2 ^ 64)) % 2 ^ 64

/-- The 50 KB stack buffer after `fread(buf, 1, len, f)` filled its first
`contents.length` bytes: bytes past the file data keep whatever residual
value the uninitialised stack held (`muxing.c:283,301`). -/
def freadBuf (residual : Nat → Nat) (contents : List Nat) : Nat → Nat :=
  fun i => if h : i < contents.length then contents.get ⟨i, h⟩ else residual i

/-- `int nal_type = buf[4] & 0x0f` (`muxing.c:307`). -/
def nalType (buf : Nat → Nat) : Nat := Nat.land (buf 4) 15

/-- The keyframe test `nal_type == 0x7` (`muxing.c:309`): an SPS marks the
access unit as an IDR/random-access point. -/
def isIdrNal (buf : Nat → Nat) : Bool := nalType buf == 7

/-- Modelled from the spec: conversion of a microsecond reading into a
stream's time-base units (time base `1/den`), the conversion the spec says
every written timestamp undergoes. Used only to compare the spec's words with
what the code writes. -/
def usToTimeBase (us den : Nat) : Nat := us * den / 1000000

/-- A packet as filled in by `write_audio_frame` / `write_video_frame` and
submitted through `write_frame`: `stream_index`, `pts = dts`, `size`, `data`,
and the `AV_PKT_FLAG_KEY` flag. `kind` records which of the two call sites
built it. -/
structure Pkt where
  kind : Kind
  streamIndex : Nat
  pts : Nat
  dts : Nat
  size : Nat
  data : List Nat
  isKey : Bool
deriving DecidableEq, Repr

/-- The environment of one run: the two numbered backing stores (`none`
models `fopen` failing), the successive `gettimeofday` readings in
microseconds, the return codes of the successive
`av_interleaved_write_frame` calls, the residual contents of the
uninitialised video stack buffer, the residual value of the uninitialised
local `ret` in `write_video_frame`, and the `avformat_write_header`
return code. -/
structure World where
  videoFiles : Nat → Option (List Nat)
  audioFiles : Nat → Option (List Nat)
  clock : Nat → Nat
  writeRes : Nat → Int
  vResidual : Nat → Nat
  retResidual : Int
  headerRes : Int

/-- The mutable state the loop body touches: the two static per-stream
sequence counters (`pts` at `muxing.c:289`, `audio_frame` at `muxing.c:216`),
plus ghost counters of how many clock reads and writer calls happened. -/
structure LoopSt where
  vCounter : Nat
  aCounter : Nat
  clockCalls : Nat
  writeCalls : Nat
deriving DecidableEq, Repr

/-- Observable events of a run. -/
inductive Event
  | header
  | anchorSet (t : Nat)
  | pollVideo (counter : Nat)
  | pollAudio (counter : Nat)
  | submit (p : Pkt)
  | trailer
  | exitEv (code : Nat)
deriving DecidableEq, Repr

/-- Outcome of one `write_video_frame` / `write_audio_frame` call: the C
return value, or a process `exit`. -/
inductive FrameRes
  | ret (v : Nat)
  | exited (code : Nat)
deriving DecidableEq, Repr

/-- `write_video_frame` (`muxing.c:266-336`). It reads the clock first
(`muxing.c:272-274`), then tries to open `avc_raw_%03d.h264` for the current
counter; on `fopen` failure it returns 1 without touching the counter
(`muxing.c:304`). On success it classifies byte 4 of the read buffer, builds
the packet, increments the counter, calls `write_frame` — whose result is
discarded: `muxing.c:324` never assigns `ret` — and then tests the
uninitialised `ret` (`muxing.c:329`), exiting iff that residual value is
negative. -/
def wvf (w : World) (anchor : Nat) (s : LoopSt) : FrameRes × List Event × LoopSt :=
  let now := w.clock s.clockCalls
  let ts := elapsedUs now anchor
  let s1 : LoopSt := { s with clockCalls := s.clockCalls + 1 }
  match w.videoFiles s.vCounter with
  | none => (FrameRes.ret 1, [Event.pollVideo s.vCounter], s1)
  | some contents =>
      let buf := freadBuf w.vResidual contents
      let pkt : Pkt :=
        { kind := Kind.video, streamIndex := videoStreamIndex, pts := ts, dts := ts,
          size := contents.length, data := contents, isKey := isIdrNal buf }
      let s2 : LoopSt := { s1 with vCounter := s.vCounter + 1, writeCalls := s1.writeCalls + 1 }
      if w.retResidual < 0 then
        (FrameRes.exited 1, [Event.pollVideo s.vCounter, Event.submit pkt, Event.exitEv 1], s2)
      else
        (FrameRes.ret 0, [Event.pollVideo s.vCounter, Event.submit pkt], s2)

/-- `write_audio_frame` (`muxing.c:206-260`). It tries to open
`aac_raw_%03d.aac` for the current counter; on `fopen` failure it returns 1
before reading the clock and without touching the counter (`muxing.c:233`).
On success it reads the clock, builds the packet, increments the counter,
submits, and exits with code 1 if `av_interleaved_write_frame` reported an
error (`muxing.c:252-256`); otherwise it returns 0 (`got_packet` is 1). -/
def waf (w : World) (anchor : Nat) (s : LoopSt) : FrameRes × List Event × LoopSt :=
  match w.audioFiles s.aCounter with
  | none => (FrameRes.ret 1, [Event.pollAudio s.aCounter], s)
  | some contents =>
      let now := w.clock s.clockCalls
      let ts := elapsedUs now anchor
      let pkt : Pkt :=
        { kind := Kind.audio, streamIndex := audioStreamIndex, pts := ts, dts := ts,
          size := contents.length, data := contents, isKey := false }
      let s1 : LoopSt :=
        { s with clockCalls := s.clockCalls + 1, aCounter := s.aCounter + 1,
                 writeCalls := s.writeCalls + 1 }
      if w.writeRes s.writeCalls < 0 then
        (FrameRes.exited 1, [Event.pollAudio s.aCounter, Event.submit pkt, Event.exitEv 1], s1)
      else
        (FrameRes.ret 0, [Event.pollAudio s.aCounter, Event.submit pkt], s1)

/-- The poll loop of `main` (`muxing.c:419-423`), fuel-bounded: while
`encode_video || encode_audio`, call `write_video_frame` then
`write_audio_frame` (both unconditionally), recompute both flags from this
iteration's return values, and loop; when the condition fails, write the
trailer (`muxing.c:429`). Running out of fuel models a run still spinning. -/
def loopTrace (w : World) (anchor : Nat) : Nat → Bool → Bool → LoopSt → List Event
  | 0, _, _, _ => []
  | fuel + 1, ev, ea, s =>
    if ev || ea then
      match wvf w anchor s with
      | (FrameRes.exited _, evs, _) => evs
      | (FrameRes.ret rv, evs, s1) =>
        match waf w anchor s1 with
        | (FrameRes.exited _, evs2, _) => evs ++ evs2
        | (FrameRes.ret ra, evs2, s2) =>
            evs ++ evs2 ++ loopTrace w anchor fuel (rv == 0) (ra == 0) s2
    else [Event.trailer]

/-- Loop-body state at the first iteration: both counters 0, one clock call
already consumed by the anchor assignment (`muxing.c:415-417`). -/
def initLoopSt : LoopSt :=
  { vCounter := 0, aCounter := 0, clockCalls := 1, writeCalls := 0 }

/-- A run of `main` from the header write on (`muxing.c:408-433`): write the
header; if it fails return (exit code 1, no polls); otherwise take the first
clock reading as the global anchor `begin_timestamp_us` (stored in a
`uint64_t`), then run the poll loop. -/
def runTrace (w : World) (fuel : Nat) : List Event :=
  if w.headerRes < 0 then [Event.header]
  else
    Event.header :: Event.anchorSet (w.clock 0 % 2 ^ 64) ::
      loopTrace w (w.clock 0 % 2 ^ 64) fuel true true initLoopSt

/-- Extract a submitted packet from an event. -/
def submitPkt : Event → Option Pkt
  | Event.submit p => some p
  | _ => none

/-- All packets submitted in a trace, in submission order. -/
def submitPkts (events : List Event) : List Pkt := events.filterMap submitPkt

/-- The pts values of all submitted packets, in submission order. -/
def allPts (events : List Event) : List Nat := (submitPkts events).map Pkt.pts

/-- The pts values of the packets one stream submitted, in order. -/
def streamPts (k : Kind) (events : List Event) : List Nat :=
  ((submitPkts events).filter (fun p => p.kind == k)).map Pkt.pts

/-- Packet built by a successful video pull at state `s` (`muxing.c:307-321`). -/
def videoPktOf (w : World) (anchor : Nat) (s : LoopSt) (contents : List Nat) : Pkt :=
  { kind := Kind.video, streamIndex := videoStreamIndex,
    pts := elapsedUs (w.clock s.clockCalls) anchor,
    dts := elapsedUs (w.clock s.clockCalls) anchor,
    size := contents.length, data := contents,
    isKey := isIdrNal (freadBuf w.vResidual contents) }

/-- Packet built by a successful audio pull at state `s` (`muxing.c:236-247`). -/
def audioPktOf (w : World) (anchor : Nat) (s : LoopSt) (contents : List Nat) : Pkt :=
  { kind := Kind.audio, streamIndex := audioStreamIndex,
    pts := elapsedUs (w.clock s.clockCalls) anchor,
    dts := elapsedUs (w.clock s.clockCalls) anchor,
    size := contents.length, data := contents, isKey := false }

/-- `write_video_frame` when `fopen` fails: return 1, counter untouched. -/
theorem wvf_none (w : World) (anchor : Nat) (s : LoopSt)
    (h : w.videoFiles s.vCounter = none) :
    wvf w anchor s =
      (FrameRes.ret 1, [Event.pollVideo s.vCounter],
       { s with clockCalls := s.clockCalls + 1 }) := by
  simp [wvf, h]

/-- `write_video_frame` on a successful read when the residual `ret` is
non-negative: submit and return 0. -/
theorem wvf_some_ok (w : World) (anchor : Nat) (s : LoopSt) (contents : List Nat)
    (h : w.videoFiles s.vCounter = some contents) (hr : 0 ≤ w.retResidual) :
    wvf w anchor s =
      (FrameRes.ret 0,
       [Event.pollVideo s.vCounter, Event.submit (videoPktOf w anchor s contents)],
       { s with vCounter := s.vCounter + 1, clockCalls := s.clockCalls + 1,
                writeCalls := s.writeCalls + 1 }) := by
  simp [wvf, h, videoPktOf, not_lt.mpr hr]

/-- `write_video_frame` on a successful read when the residual `ret` happens
to be negative: submit, then `exit(1)`. -/
theorem wvf_some_exit (w : World) (anchor : Nat) (s : LoopSt) (contents : List Nat)
    (h : w.videoFiles s.vCounter = some contents) (hr : w.retResidual < 0) :
    wvf w anchor s =
      (FrameRes.exited 1,
       [Event.pollVideo s.vCounter, Event.submit (videoPktOf w anchor s contents),
        Event.exitEv 1],
       { s with vCounter := s.vCounter + 1, clockCalls := s.clockCalls + 1,
                writeCalls := s.writeCalls + 1 }) := by
  simp [wvf, h, videoPktOf, hr]

/-- `write_audio_frame` when `fopen` fails: return 1, state untouched. -/
theorem waf_none (w : World) (anchor : Nat) (s : LoopSt)
    (h : w.audioFiles s.aCounter = none) :
    waf w anchor s = (FrameRes.ret 1, [Event.pollAudio s.aCounter], s) := by
  simp [waf, h]

/-- `write_audio_frame` on a successful read and write: submit, return 0. -/
theorem waf_some_ok (w : World) (anchor : Nat) (s : LoopSt) (contents : List Nat)
    (h : w.audioFiles s.aCounter = some contents) (hr : 0 ≤ w.writeRes s.writeCalls) :
    waf w anchor s =
      (FrameRes.ret 0,
       [Event.pollAudio s.aCounter, Event.submit (audioPktOf w anchor s contents)],
       { s with aCounter := s.aCounter + 1, clockCalls := s.clockCalls + 1,
                writeCalls := s.writeCalls + 1 }) := by
  simp [waf, h, audioPktOf, not_lt.mpr hr]

/-- `write_audio_frame` on a successful read whose submission fails: submit,
then `exit(1)` (`muxing.c:252-256`). -/
theorem waf_some_exit (w : World) (anchor : Nat) (s : LoopSt) (contents : List Nat)
    (h : w.audioFiles s.aCounter = some contents) (hr : w.writeRes s.writeCalls < 0) :
    waf w anchor s =
      (FrameRes.exited 1,
       [Event.pollAudio s.aCounter, Event.submit (audioPktOf w anchor s contents),
        Event.exitEv 1],
       { s with aCounter := s.aCounter + 1, clockCalls := s.clockCalls + 1,
                writeCalls := s.writeCalls + 1 }) := by
  simp [waf, h, audioPktOf, hr]
theorem loopIter_stop (w : World) (a fuel : Nat) (ev ea : Bool) (s : LoopSt)
    (hc : (ev || ea) = false) :
    loopTrace w a (fuel + 1) ev ea s = [Event.trailer] := by
  rw [loopTrace, if_neg (by simp [hc])]

theorem loopIter_vexit (w : World) (a fuel : Nat) (ev ea : Bool) (s : LoopSt)
    (hc : (ev || ea) = true) (cv : List Nat)
    (hv : w.videoFiles s.vCounter = some cv) (hr : w.retResidual < 0) :
    loopTrace w a (fuel + 1) ev ea s =
      [Event.pollVideo s.vCounter, Event.submit (videoPktOf w a s cv), Event.exitEv 1] := by
  rw [loopTrace, if_pos hc, wvf_some_exit w a s cv hv hr]

theorem loopIter_vn_an (w : World) (a fuel : Nat) (ev ea : Bool) (s : LoopSt)
    (hc : (ev || ea) = true)
    (hv : w.videoFiles s.vCounter = none) (ha : w.audioFiles s.aCounter = none) :
    loopTrace w a (fuel + 1) ev ea s =
      [Event.pollVideo s.vCounter, Event.pollAudio s.aCounter] ++
        loopTrace w a fuel false false { s with clockCalls := s.clockCalls + 1 } := by
  rw [loopTrace, if_pos hc, wvf_none w a s hv]
  simp only []
  rw [waf_none w a ⟨s.vCounter, s.aCounter, s.clockCalls + 1, s.writeCalls⟩ ha]
  simp

theorem loopIter_vn_aexit (w : World) (a fuel : Nat) (ev ea : Bool) (s : LoopSt)
    (hc : (ev || ea) = true) (ca : List Nat)
    (hv : w.videoFiles s.vCounter = none) (ha : w.audioFiles s.aCounter = some ca)
    (hw : w.writeRes s.writeCalls < 0) :
    loopTrace w a (fuel + 1) ev ea s =
      [Event.pollVideo s.vCounter, Event.pollAudio s.aCounter,
       Event.submit (audioPktOf w a { s with clockCalls := s.clockCalls + 1 } ca),
       Event.exitEv 1] := by
  rw [loopTrace, if_pos hc, wvf_none w a s hv]
  simp only []
  rw [waf_some_exit w a ⟨s.vCounter, s.aCounter, s.clockCalls + 1, s.writeCalls⟩ ca ha hw]
  simp

theorem loopIter_vn_aok (w : World) (a fuel : Nat) (ev ea : Bool) (s : LoopSt)
    (hc : (ev || ea) = true) (ca : List Nat)
    (hv : w.videoFiles s.vCounter = none) (ha : w.audioFiles s.aCounter = some ca)
    (hw : 0 ≤ w.writeRes s.writeCalls) :
    loopTrace w a (fuel + 1) ev ea s =
      [Event.pollVideo s.vCounter, Event.pollAudio s.aCounter,
       Event.submit (audioPktOf w a { s with clockCalls := s.clockCalls + 1 } ca)] ++
        loopTrace w a fuel false true
          { s with aCounter := s.aCounter + 1, clockCalls := s.clockCalls + 2,
                   writeCalls := s.writeCalls + 1 } := by
  rw [loopTrace, if_pos hc, wvf_none w a s hv]
  simp only []
  rw [waf_some_ok w a ⟨s.vCounter, s.aCounter, s.clockCalls + 1, s.writeCalls⟩ ca ha hw]
  simp

theorem loopIter_vok_an (w : World) (a fuel : Nat) (ev ea : Bool) (s : LoopSt)
    (hc : (ev || ea) = true) (cv : List Nat)
    (hv : w.videoFiles s.vCounter = some cv) (hr : 0 ≤ w.retResidual)
    (ha : w.audioFiles s.aCounter = none) :
    loopTrace w a (fuel + 1) ev ea s =
      [Event.pollVideo s.vCounter, Event.submit (videoPktOf w a s cv),
       Event.pollAudio s.aCounter] ++
        loopTrace w a fuel true false
          { s with vCounter := s.vCounter + 1, clockCalls := s.clockCalls + 1,
                   writeCalls := s.writeCalls + 1 } := by
  rw [loopTrace, if_pos hc, wvf_some_ok w a s cv hv hr]
  simp only []
  rw [waf_none w a ⟨s.vCounter + 1, s.aCounter, s.clockCalls + 1, s.writeCalls + 1⟩ ha]
  simp

theorem loopIter_vok_aexit (w : World) (a fuel : Nat) (ev ea : Bool) (s : LoopSt)
    (hc : (ev || ea) = true) (cv ca : List Nat)
    (hv : w.videoFiles s.vCounter = some cv) (hr : 0 ≤ w.retResidual)
    (ha : w.audioFiles s.aCounter = some ca)
    (hw : w.writeRes (s.writeCalls + 1) < 0) :
    loopTrace w a (fuel + 1) ev ea s =
      [Event.pollVideo s.vCounter, Event.submit (videoPktOf w a s cv),
       Event.pollAudio s.aCounter,
       Event.submit (audioPktOf w a
         { s with vCounter := s.vCounter + 1, clockCalls := s.clockCalls + 1,
                  writeCalls := s.writeCalls + 1 } ca),
       Event.exitEv 1] := by
  rw [loopTrace, if_pos hc, wvf_some_ok w a s cv hv hr]
  simp only []
  rw [waf_some_exit w a ⟨s.vCounter + 1, s.aCounter, s.clockCalls + 1, s.writeCalls + 1⟩ ca ha hw]
  simp

theorem loopIter_vok_aok (w : World) (a fuel : Nat) (ev ea : Bool) (s : LoopSt)
    (hc : (ev || ea) = true) (cv ca : List Nat)
    (hv : w.videoFiles s.vCounter = some cv) (hr : 0 ≤ w.retResidual)
    (ha : w.audioFiles s.aCounter = some ca)
    (hw : 0 ≤ w.writeRes (s.writeCalls + 1)) :
    loopTrace w a (fuel + 1) ev ea s =
      [Event.pollVideo s.vCounter, Event.submit (videoPktOf w a s cv),
       Event.pollAudio s.aCounter,
       Event.submit (audioPktOf w a
         { s with vCounter := s.vCounter + 1, clockCalls := s.clockCalls + 1,
                  writeCalls := s.writeCalls + 1 } ca)] ++
        loopTrace w a fuel true true
          { s with vCounter := s.vCounter + 1, aCounter := s.aCounter + 1,
                   clockCalls := s.clockCalls + 2, writeCalls := s.writeCalls + 2 } := by
  rw [loopTrace, if_pos hc, wvf_some_ok w a s cv hv hr]
  simp only []
  rw [waf_some_ok w a ⟨s.vCounter + 1, s.aCounter, s.clockCalls + 1, s.writeCalls + 1⟩ ca ha hw]
  simp
/-- Every event a loop trace can contain satisfies `P`, provided `P` holds for
all polls, submissions, the trailer and `exit(1)`. -/
theorem loop_all_events (w : World) (a : Nat) (P : Event → Prop)
    (hPV : ∀ n, P (Event.pollVideo n)) (hPA : ∀ n, P (Event.pollAudio n))
    (hS : ∀ p, P (Event.submit p)) (hT : P Event.trailer) (hE : P (Event.exitEv 1)) :
    ∀ (fuel : Nat) (ev ea : Bool) (s : LoopSt), ∀ e ∈ loopTrace w a fuel ev ea s, P e := by
  intro fuel
  induction fuel with
  | zero =>
    intro ev ea s e he
    simp [loopTrace] at he
  | succ n ih =>
    intro ev ea s e he
    by_cases hc : (ev || ea) = true
    · rcases hv : w.videoFiles s.vCounter with _ | cv
      · rcases ha : w.audioFiles s.aCounter with _ | ca
        · rw [loopIter_vn_an w a n ev ea s hc hv ha] at he
          rcases List.mem_append.mp he with h | h
          · rcases (by simpa using h : e = _ ∨ e = _) with rfl | rfl
            · exact hPV _
            · exact hPA _
          · exact ih _ _ _ e h
        · rcases lt_or_le (w.writeRes s.writeCalls) 0 with hw | hw
          · rw [loopIter_vn_aexit w a n ev ea s hc ca hv ha hw] at he
            rcases (by simpa using he : e = _ ∨ e = _ ∨ e = _ ∨ e = _) with rfl | rfl | rfl | rfl
            · exact hPV _
            · exact hPA _
            · exact hS _
            · exact hE
          · rw [loopIter_vn_aok w a n ev ea s hc ca hv ha hw] at he
            rcases List.mem_append.mp he with h | h
            · rcases (by simpa using h : e = _ ∨ e = _ ∨ e = _) with rfl | rfl | rfl
              · exact hPV _
              · exact hPA _
              · exact hS _
            · exact ih _ _ _ e h
      · rcases lt_or_le w.retResidual 0 with hr | hr
        · rw [loopIter_vexit w a n ev ea s hc cv hv hr] at he
          rcases (by simpa using he : e = _ ∨ e = _ ∨ e = _) with rfl | rfl | rfl
          · exact hPV _
          · exact hS _
          · exact hE
        · rcases ha : w.audioFiles s.aCounter with _ | ca
          · rw [loopIter_vok_an w a n ev ea s hc cv hv hr ha] at he
            rcases List.mem_append.mp he with h | h
            · rcases (by simpa using h : e = _ ∨ e = _ ∨ e = _) with rfl | rfl | rfl
              · exact hPV _
              · exact hS _
              · exact hPA _
            · exact ih _ _ _ e h
          · rcases lt_or_le (w.writeRes (s.writeCalls + 1)) 0 with hw | hw
            · rw [loopIter_vok_aexit w a n ev ea s hc cv ca hv hr ha hw] at he
              rcases (by simpa using he : e = _ ∨ e = _ ∨ e = _ ∨ e = _ ∨ e = _) with
                rfl | rfl | rfl | rfl | rfl
              · exact hPV _
              · exact hS _
              · exact hPA _
              · exact hS _
              · exact hE
            · rw [loopIter_vok_aok w a n ev ea s hc cv ca hv hr ha hw] at he
              rcases List.mem_append.mp he with h | h
              · rcases (by simpa using h : e = _ ∨ e = _ ∨ e = _ ∨ e = _) with
                  rfl | rfl | rfl | rfl
                · exact hPV _
                · exact hS _
                · exact hPA _
                · exact hS _
              · exact ih _ _ _ e h
    · rw [loopIter_stop w a n ev ea s (by simpa using hc)] at he
      rcases (by simpa using he : e = _) with rfl
      exact hT
/-- Every packet a loop trace submits satisfies `Q c p`, where `c` is the
number of clock reads already consumed when the loop was entered, provided
`Q` is antitone in `c` and holds for the video/audio packets built at any
state. -/
theorem loop_submit_pred (w : World) (a : Nat) (Q : Nat → Pkt → Prop)
    (mono : ∀ c c' p, c ≤ c' → Q c' p → Q c p)
    (hQv : ∀ (s : LoopSt) (cv : List Nat), Q s.clockCalls (videoPktOf w a s cv))
    (hQa : ∀ (s : LoopSt) (ca : List Nat), Q s.clockCalls (audioPktOf w a s ca)) :
    ∀ (fuel : Nat) (ev ea : Bool) (s : LoopSt), ∀ p,
      Event.submit p ∈ loopTrace w a fuel ev ea s → Q s.clockCalls p := by
  intro fuel
  induction fuel with
  | zero =>
    intro ev ea s p hp
    simp [loopTrace] at hp
  | succ n ih =>
    intro ev ea s p hp
    by_cases hc : (ev || ea) = true
    · rcases hv : w.videoFiles s.vCounter with _ | cv
      · rcases ha : w.audioFiles s.aCounter with _ | ca
        · rw [loopIter_vn_an w a n ev ea s hc hv ha] at hp
          rcases List.mem_append.mp hp with h | h
          · simp at h
          · exact mono _ _ p (Nat.le_succ _) (ih _ _ _ p h)
        · rcases lt_or_le (w.writeRes s.writeCalls) 0 with hw | hw
          · rw [loopIter_vn_aexit w a n ev ea s hc ca hv ha hw] at hp
            rcases (by simpa using hp : p = _) with rfl
            exact mono _ _ _ (Nat.le_succ _)
              (hQa ⟨s.vCounter, s.aCounter, s.clockCalls + 1, s.writeCalls⟩ ca)
          · rw [loopIter_vn_aok w a n ev ea s hc ca hv ha hw] at hp
            rcases List.mem_append.mp hp with h | h
            · rcases (by simpa using h : p = _) with rfl
              exact mono _ _ _ (Nat.le_succ _)
                (hQa ⟨s.vCounter, s.aCounter, s.clockCalls + 1, s.writeCalls⟩ ca)
            · exact mono _ _ p (by simp) (ih _ _ _ p h)
      · rcases lt_or_le w.retResidual 0 with hr | hr
        · rw [loopIter_vexit w a n ev ea s hc cv hv hr] at hp
          rcases (by simpa using hp : p = _) with rfl
          exact hQv s cv
        · rcases ha : w.audioFiles s.aCounter with _ | ca
          · rw [loopIter_vok_an w a n ev ea s hc cv hv hr ha] at hp
            rcases List.mem_append.mp hp with h | h
            · rcases (by simpa using h : p = _) with rfl
              exact hQv s cv
            · exact mono _ _ p (Nat.le_succ _) (ih _ _ _ p h)
          · rcases lt_or_le (w.writeRes (s.writeCalls + 1)) 0 with hw | hw
            · rw [loopIter_vok_aexit w a n ev ea s hc cv ca hv hr ha hw] at hp
              rcases (by simpa using hp : p = _ ∨ p = _) with rfl | rfl
              · exact hQv s cv
              · exact mono _ _ _ (Nat.le_succ _)
                  (hQa ⟨s.vCounter + 1, s.aCounter, s.clockCalls + 1, s.writeCalls + 1⟩ ca)
            · rw [loopIter_vok_aok w a n ev ea s hc cv ca hv hr ha hw] at hp
              rcases List.mem_append.mp hp with h | h
              · rcases (by simpa using h : p = _ ∨ p = _) with rfl | rfl
                · exact hQv s cv
                · exact mono _ _ _ (Nat.le_succ _)
                    (hQa ⟨s.vCounter + 1, s.aCounter, s.clockCalls + 1, s.writeCalls + 1⟩ ca)
              · exact mono _ _ p (by simp) (ih _ _ _ p h)
    · rw [loopIter_stop w a n ev ea s (by simpa using hc)] at hp
      simp at hp
/-- A trace fragment with no terminating event (no trailer write, no exit). -/
def nonTerminal (l : List Event) : Prop :=
  Event.trailer ∉ l ∧ ∀ c, Event.exitEv c ∉ l

theorem nonTerminal_nil : nonTerminal [] := by simp [nonTerminal]

theorem nonTerminal_append (l1 l2 : List Event) (h1 : nonTerminal l1)
    (h2 : nonTerminal l2) : nonTerminal (l1 ++ l2) := by
  obtain ⟨ht1, he1⟩ := h1
  obtain ⟨ht2, he2⟩ := h2
  refine ⟨by simp [ht1, ht2], fun c => ?_⟩
  simp [he1 c, he2 c]

/-- The three possible shapes of a (partial) trace. -/
def termShape (l : List Event) : Prop :=
  (∃ pre, l = pre ++ [Event.trailer] ∧ nonTerminal pre) ∨
  (∃ pre, l = pre ++ [Event.exitEv 1] ∧ nonTerminal pre) ∨
  nonTerminal l

theorem termShape_append (base rest : List Event) (hbase : nonTerminal base)
    (h : termShape rest) : termShape (base ++ rest) := by
  rcases h with ⟨pre, heq, hnt⟩ | ⟨pre, heq, hnt⟩ | hnt
  · exact Or.inl ⟨base ++ pre, by rw [heq, List.append_assoc],
      nonTerminal_append _ _ hbase hnt⟩
  · exact Or.inr (Or.inl ⟨base ++ pre, by rw [heq, List.append_assoc],
      nonTerminal_append _ _ hbase hnt⟩)
  · exact Or.inr (Or.inr (nonTerminal_append _ _ hbase hnt))

/-- Structure of a loop trace: it ends with a single trailer write, or ends
with a single `exit(1)`, or (out of fuel) contains neither; terminating
events never occur mid-trace. -/
theorem loop_term_shape (w : World) (a : Nat) :
    ∀ (fuel : Nat) (ev ea : Bool) (s : LoopSt),
      termShape (loopTrace w a fuel ev ea s) := by
  intro fuel
  induction fuel with
  | zero =>
    intro ev ea s
    right; right
    simp [loopTrace, nonTerminal]
  | succ n ih =>
    intro ev ea s
    by_cases hc : (ev || ea) = true
    · rcases hv : w.videoFiles s.vCounter with _ | cv
      · rcases ha : w.audioFiles s.aCounter with _ | ca
        · rw [loopIter_vn_an w a n ev ea s hc hv ha]
          exact termShape_append _ _ (by simp [nonTerminal]) (ih _ _ _)
        · rcases lt_or_le (w.writeRes s.writeCalls) 0 with hw | hw
          · rw [loopIter_vn_aexit w a n ev ea s hc ca hv ha hw]
            refine Or.inr (Or.inl ⟨[Event.pollVideo s.vCounter, Event.pollAudio s.aCounter,
              Event.submit (audioPktOf w a ⟨s.vCounter, s.aCounter, s.clockCalls + 1, s.writeCalls⟩ ca)],
              rfl, by simp [nonTerminal]⟩)
          · rw [loopIter_vn_aok w a n ev ea s hc ca hv ha hw]
            exact termShape_append _ _ (by simp [nonTerminal]) (ih _ _ _)
      · rcases lt_or_le w.retResidual 0 with hr | hr
        · rw [loopIter_vexit w a n ev ea s hc cv hv hr]
          refine Or.inr (Or.inl ⟨[Event.pollVideo s.vCounter,
            Event.submit (videoPktOf w a s cv)], rfl, by simp [nonTerminal]⟩)
        · rcases ha : w.audioFiles s.aCounter with _ | ca
          · rw [loopIter_vok_an w a n ev ea s hc cv hv hr ha]
            exact termShape_append _ _ (by simp [nonTerminal]) (ih _ _ _)
          · rcases lt_or_le (w.writeRes (s.writeCalls + 1)) 0 with hw | hw
            · rw [loopIter_vok_aexit w a n ev ea s hc cv ca hv hr ha hw]
              refine Or.inr (Or.inl ⟨[Event.pollVideo s.vCounter,
                Event.submit (videoPktOf w a s cv), Event.pollAudio s.aCounter,
                Event.submit (audioPktOf w a ⟨s.vCounter + 1, s.aCounter, s.clockCalls + 1, s.writeCalls + 1⟩ ca)],
                rfl, by simp [nonTerminal]⟩)
            · rw [loopIter_vok_aok w a n ev ea s hc cv ca hv hr ha hw]
              exact termShape_append _ _ (by simp [nonTerminal]) (ih _ _ _)
    · rw [loopIter_stop w a n ev ea s (by simpa using hc)]
      exact Or.inl ⟨[], rfl, nonTerminal_nil⟩
theorem allPts_append (l1 l2 : List Event) :
    allPts (l1 ++ l2) = allPts l1 ++ allPts l2 := by
  simp [allPts, submitPkts, List.filterMap_append]

theorem allPts_nil : allPts [] = [] := rfl

theorem allPts_pollVideo (n : Nat) (l : List Event) :
    allPts (Event.pollVideo n :: l) = allPts l := rfl

theorem allPts_pollAudio (n : Nat) (l : List Event) :
    allPts (Event.pollAudio n :: l) = allPts l := rfl

theorem allPts_submit (p : Pkt) (l : List Event) :
    allPts (Event.submit p :: l) = p.pts :: allPts l := rfl

theorem allPts_trailer (l : List Event) :
    allPts (Event.trailer :: l) = allPts l := rfl

theorem allPts_exitEv (c : Nat) (l : List Event) :
    allPts (Event.exitEv c :: l) = allPts l := rfl

theorem videoPktOf_pts (w : World) (a : Nat) (s : LoopSt) (cv : List Nat) :
    (videoPktOf w a s cv).pts = elapsedUs (w.clock s.clockCalls) a := rfl

theorem audioPktOf_pts (w : World) (a : Nat) (s : LoopSt) (ca : List Nat) :
    (audioPktOf w a s ca).pts = elapsedUs (w.clock s.clockCalls) a := rfl

/-- `uint64` subtraction is plain subtraction when the anchor does not exceed
the reading and the reading fits in 64 bits. -/
theorem elapsed_sub (t b : Nat) (h1 : b ≤ t) (h2 : t < 2 ^ 64) :
    elapsedUs t b = t - b := by
  have hb : b % 2 ^ 64 = b := Nat.mod_eq_of_lt (lt_of_le_of_lt h1 h2)
  have hsplit : t + (2 ^ 64 - b) = 2 ^ 64 + (t - b) := by omega
  rw [elapsedUs, hb, hsplit, Nat.add_mod_left, Nat.mod_eq_of_lt (by omega)]

theorem chain_le_cons (x : Nat) (l : List Nat) (h : ∀ y ∈ l, x ≤ y)
    (hc : List.Chain' (fun u v => u ≤ v) l) :
    List.Chain' (fun u v => u ≤ v) (x :: l) := by
  cases l with
  | nil => simp
  | cons b t => exact List.Chain'.cons (h b (by simp)) hc

/-- Under a monotone 64-bit clock, the pts values of all packets a loop trace
submits are non-decreasing in submission order, and all of them are at least
the elapsed time at loop entry. -/
theorem loop_chain (w : World)
    (hmono : ∀ i j, i ≤ j → w.clock i ≤ w.clock j)
    (hb : ∀ k, w.clock k < 2 ^ 64) :
    ∀ (fuel : Nat) (ev ea : Bool) (s : LoopSt),
      List.Chain' (fun u v => u ≤ v)
        (allPts (loopTrace w (w.clock 0 % 2 ^ 64) fuel ev ea s)) ∧
      ∀ x ∈ allPts (loopTrace w (w.clock 0 % 2 ^ 64) fuel ev ea s),
        w.clock s.clockCalls - w.clock 0 ≤ x := by
  have he : ∀ k, elapsedUs (w.clock k) (w.clock 0 % 2 ^ 64) = w.clock k - w.clock 0 := by
    intro k
    rw [Nat.mod_eq_of_lt (hb 0)]
    exact elapsed_sub _ _ (hmono 0 k (Nat.zero_le k)) (hb k)
  have hsub : ∀ i j, i ≤ j → w.clock i - w.clock 0 ≤ w.clock j - w.clock 0 := by
    intro i j hij
    exact Nat.sub_le_sub_right (hmono i j hij) _
  intro fuel
  induction fuel with
  | zero =>
    intro ev ea s
    refine ⟨by simp [loopTrace, allPts, submitPkts], fun x hx => ?_⟩
    simp [loopTrace, allPts, submitPkts] at hx
  | succ n ih =>
    intro ev ea s
    by_cases hc : (ev || ea) = true
    · rcases hv : w.videoFiles s.vCounter with _ | cv
      · rcases ha : w.audioFiles s.aCounter with _ | ca
        · rw [loopIter_vn_an w (w.clock 0 % 2 ^ 64) n ev ea s hc hv ha]
          simp only [allPts_append, allPts_pollVideo, allPts_pollAudio, allPts_nil,
            List.nil_append]
          obtain ⟨ihc, ihb⟩ := ih false false ⟨s.vCounter, s.aCounter, s.clockCalls + 1, s.writeCalls⟩
          exact ⟨ihc, fun x hx => le_trans (hsub _ _ (Nat.le_succ _)) (ihb x hx)⟩
        · rcases lt_or_le (w.writeRes s.writeCalls) 0 with hw | hw
          · rw [loopIter_vn_aexit w (w.clock 0 % 2 ^ 64) n ev ea s hc ca hv ha hw]
            simp only [allPts_pollVideo, allPts_pollAudio, allPts_submit, allPts_exitEv,
              allPts_nil, audioPktOf_pts, he]
            refine ⟨by simp, fun x hx => ?_⟩
            rcases List.mem_singleton.mp hx with rfl
            exact hsub _ _ (Nat.le_succ _)
          · rw [loopIter_vn_aok w (w.clock 0 % 2 ^ 64) n ev ea s hc ca hv ha hw]
            simp only [allPts_append, allPts_pollVideo, allPts_pollAudio, allPts_submit,
              allPts_nil, List.cons_append, List.nil_append, audioPktOf_pts, he]
            obtain ⟨ihc, ihb⟩ := ih false true ⟨s.vCounter, s.aCounter + 1, s.clockCalls + 2, s.writeCalls + 1⟩
            constructor
            · refine chain_le_cons _ _ (fun y hy => ?_) ihc
              exact le_trans (hsub _ _ (Nat.le_succ _)) (ihb y hy)
            · intro x hx
              rcases List.mem_cons.mp hx with rfl | hx
              · exact hsub _ _ (Nat.le_succ _)
              · exact le_trans (hsub _ _ (Nat.le_add_right _ 2)) (ihb x hx)
      · rcases lt_or_le w.retResidual 0 with hr | hr
        · rw [loopIter_vexit w (w.clock 0 % 2 ^ 64) n ev ea s hc cv hv hr]
          simp only [allPts_pollVideo, allPts_submit, allPts_exitEv, allPts_nil,
            videoPktOf_pts, he]
          refine ⟨by simp, fun x hx => ?_⟩
          rcases List.mem_singleton.mp hx with rfl
          exact le_refl _
        · rcases ha : w.audioFiles s.aCounter with _ | ca
          · rw [loopIter_vok_an w (w.clock 0 % 2 ^ 64) n ev ea s hc cv hv hr ha]
            simp only [allPts_append, allPts_pollVideo, allPts_pollAudio, allPts_submit,
              allPts_nil, List.cons_append, List.nil_append, videoPktOf_pts, he]
            obtain ⟨ihc, ihb⟩ := ih true false ⟨s.vCounter + 1, s.aCounter, s.clockCalls + 1, s.writeCalls + 1⟩
            constructor
            · refine chain_le_cons _ _ (fun y hy => ?_) ihc
              exact le_trans (hsub _ _ (Nat.le_succ _)) (ihb y hy)
            · intro x hx
              rcases List.mem_cons.mp hx with rfl | hx
              · exact le_refl _
              · exact le_trans (hsub _ _ (Nat.le_succ _)) (ihb x hx)
          · rcases lt_or_le (w.writeRes (s.writeCalls + 1)) 0 with hw | hw
            · rw [loopIter_vok_aexit w (w.clock 0 % 2 ^ 64) n ev ea s hc cv ca hv hr ha hw]
              simp only [allPts_pollVideo, allPts_pollAudio, allPts_submit, allPts_exitEv,
                allPts_nil, videoPktOf_pts, audioPktOf_pts, he]
              constructor
              · refine chain_le_cons _ _ (fun y hy => ?_) (by simp)
                rcases List.mem_singleton.mp hy with rfl
                exact hsub _ _ (Nat.le_succ _)
              · intro x hx
                rcases List.mem_cons.mp hx with rfl | hx
                · exact le_refl _
                · rcases List.mem_singleton.mp hx with rfl
                  exact hsub _ _ (Nat.le_succ _)
            · rw [loopIter_vok_aok w (w.clock 0 % 2 ^ 64) n ev ea s hc cv ca hv hr ha hw]
              simp only [allPts_append, allPts_pollVideo, allPts_pollAudio, allPts_submit,
                allPts_nil, List.cons_append, List.nil_append, videoPktOf_pts, audioPktOf_pts, he]
              obtain ⟨ihc, ihb⟩ := ih true true ⟨s.vCounter + 1, s.aCounter + 1, s.clockCalls + 2, s.writeCalls + 2⟩
              constructor
              · refine chain_le_cons _ _ (fun y hy => ?_) ?_
                · rcases List.mem_cons.mp hy with rfl | hy
                  · exact hsub _ _ (Nat.le_succ _)
                  · exact le_trans (hsub _ _ (Nat.le_add_right _ 2)) (ihb y hy)
                · refine chain_le_cons _ _ (fun y hy => ?_) ihc
                  exact le_trans (hsub _ _ (Nat.le_succ _)) (ihb y hy)
              · intro x hx
                rcases List.mem_cons.mp hx with rfl | hx
                · exact le_refl _
                · rcases List.mem_cons.mp hx with rfl | hx
                  · exact hsub _ _ (Nat.le_succ _)
                  · exact le_trans (hsub _ _ (Nat.le_add_right _ 2)) (ihb x hx)
    · rw [loopIter_stop w (w.clock 0 % 2 ^ 64) n ev ea s (by simpa using hc)]
      refine ⟨by simp [allPts, submitPkts, submitPkt], fun x hx => ?_⟩
      simp [allPts, submitPkts, submitPkt] at hx
/-- The loop writes the trailer only after an iteration in which the video
poll and the audio poll both reported exhaustion (or it was entered with both
flags already false). The witnessing state `s'` pins both polls to the same
iteration: video exhaustion leaves every counter unchanged, so the audio poll
of that iteration really did happen at `s'.aCounter`. -/
theorem loop_trailer_both_exhausted (w : World) (a : Nat) :
    ∀ (fuel : Nat) (ev ea : Bool) (s : LoopSt),
      Event.trailer ∈ loopTrace w a fuel ev ea s →
      (ev = false ∧ ea = false) ∨
      ∃ s' : LoopSt, w.videoFiles s'.vCounter = none ∧ w.audioFiles s'.aCounter = none ∧
        Event.pollVideo s'.vCounter ∈ loopTrace w a fuel ev ea s ∧
        Event.pollAudio s'.aCounter ∈ loopTrace w a fuel ev ea s := by
  intro fuel
  induction fuel with
  | zero =>
    intro ev ea s ht
    simp [loopTrace] at ht
  | succ n ih =>
    intro ev ea s ht
    by_cases hc : (ev || ea) = true
    · rcases hv : w.videoFiles s.vCounter with _ | cv
      · rcases ha : w.audioFiles s.aCounter with _ | ca
        · right
          exact ⟨s, hv, ha,
            by rw [loopIter_vn_an w a n ev ea s hc hv ha]; simp,
            by rw [loopIter_vn_an w a n ev ea s hc hv ha]; simp⟩
        · rcases lt_or_le (w.writeRes s.writeCalls) 0 with hw | hw
          · rw [loopIter_vn_aexit w a n ev ea s hc ca hv ha hw] at ht
            simp at ht
          · rw [loopIter_vn_aok w a n ev ea s hc ca hv ha hw] at ht
            rcases List.mem_append.mp ht with h | h
            · simp at h
            · rcases ih false true _ h with ⟨_, hfa⟩ | ⟨s2, h1, h2, h3, h4⟩
              · exact absurd hfa (by simp)
              · refine Or.inr ⟨s2, h1, h2, ?_, ?_⟩
                · rw [loopIter_vn_aok w a n ev ea s hc ca hv ha hw]
                  exact List.mem_append_right _ h3
                · rw [loopIter_vn_aok w a n ev ea s hc ca hv ha hw]
                  exact List.mem_append_right _ h4
      · rcases lt_or_le w.retResidual 0 with hr | hr
        · rw [loopIter_vexit w a n ev ea s hc cv hv hr] at ht
          simp at ht
        · rcases ha : w.audioFiles s.aCounter with _ | ca
          · rw [loopIter_vok_an w a n ev ea s hc cv hv hr ha] at ht
            rcases List.mem_append.mp ht with h | h
            · simp at h
            · rcases ih true false _ h with ⟨hfv, _⟩ | ⟨s2, h1, h2, h3, h4⟩
              · exact absurd hfv (by simp)
              · refine Or.inr ⟨s2, h1, h2, ?_, ?_⟩
                · rw [loopIter_vok_an w a n ev ea s hc cv hv hr ha]
                  exact List.mem_append_right _ h3
                · rw [loopIter_vok_an w a n ev ea s hc cv hv hr ha]
                  exact List.mem_append_right _ h4
          · rcases lt_or_le (w.writeRes (s.writeCalls + 1)) 0 with hw | hw
            · rw [loopIter_vok_aexit w a n ev ea s hc cv ca hv hr ha hw] at ht
              simp at ht
            · rw [loopIter_vok_aok w a n ev ea s hc cv ca hv hr ha hw] at ht
              rcases List.mem_append.mp ht with h | h
              · simp at h
              · rcases ih true true _ h with ⟨hfv, _⟩ | ⟨s2, h1, h2, h3, h4⟩
                · exact absurd hfv (by simp)
                · refine Or.inr ⟨s2, h1, h2, ?_, ?_⟩
                  · rw [loopIter_vok_aok w a n ev ea s hc cv ca hv hr ha hw]
                    exact List.mem_append_right _ h3
                  · rw [loopIter_vok_aok w a n ev ea s hc cv ca hv hr ha hw]
                    exact List.mem_append_right _ h4
    · left
      have := Bool.or_eq_false_iff.mp (by simpa using hc)
      exact this
theorem streamPts_sublist (k : Kind) (l : List Event) :
    (streamPts k l).Sublist (allPts l) :=
  List.Sublist.map Pkt.pts (List.filter_sublist (submitPkts l))

theorem streamPts_header (k : Kind) (l : List Event) :
    streamPts k (Event.header :: l) = streamPts k l := rfl

theorem streamPts_anchor (k : Kind) (t : Nat) (l : List Event) :
    streamPts k (Event.anchorSet t :: l) = streamPts k l := rfl

theorem allPts_header (l : List Event) : allPts (Event.header :: l) = allPts l := rfl

theorem allPts_anchor (t : Nat) (l : List Event) :
    allPts (Event.anchorSet t :: l) = allPts l := rfl

theorem loop_no_header (w : World) (a fuel : Nat) (ev ea : Bool) (s : LoopSt) :
    Event.header ∉ loopTrace w a fuel ev ea s := by
  intro hmem
  exact loop_all_events w a (fun e => e ≠ Event.header)
    (by simp) (by simp) (by simp) (by simp) (by simp) fuel ev ea s _ hmem rfl

theorem loop_no_anchor (w : World) (a fuel : Nat) (ev ea : Bool) (s : LoopSt)
    (t : Nat) : Event.anchorSet t ∉ loopTrace w a fuel ev ea s := by
  intro hmem
  exact loop_all_events w a (fun e => ∀ u, e ≠ Event.anchorSet u)
    (by simp) (by simp) (by simp) (by simp) (by simp) fuel ev ea s _ hmem t rfl

/-- A run with both streams backed by one unit each at counter 0, a clock
advancing 2000 microseconds per reading, and a well-behaved writer. -/
def wBoth : World :=
  { videoFiles := fun n => if n = 0 then some [0, 0, 0, 1, 103] else none
  , audioFiles := fun n => if n = 0 then some [9] else none
  , clock := fun k => 2000 * k
  , writeRes := fun _ => 0
  , vResidual := fun _ => 0
  , retResidual := 0
  , headerRes := 0 }

/-- A run with both backing stores empty. -/
def wNone : World :=
  { videoFiles := fun _ => none
  , audioFiles := fun _ => none
  , clock := fun _ => 0
  , writeRes := fun _ => 0
  , vResidual := fun _ => 0
  , retResidual := 0
  , headerRes := 0 }

/-- A run whose only audio unit arrives when one second has elapsed. -/
def wAudioOne : World :=
  { videoFiles := fun _ => none
  , audioFiles := fun n => if n = 0 then some [9] else none
  , clock := fun _ => 1000000
  , writeRes := fun _ => 0
  , vResidual := fun _ => 0
  , retResidual := 0
  , headerRes := 0 }

/-- A run whose first video and audio units exist but are zero-length files;
the residual stack byte at offset 4 is 0x67 (an SPS header left over from an
earlier read). -/
def wEmptyBoth : World :=
  { videoFiles := fun n => if n = 0 then some [] else none
  , audioFiles := fun n => if n = 0 then some [] else none
  , clock := fun _ => 0
  , writeRes := fun _ => 0
  , vResidual := fun _ => 103
  , retResidual := 0
  , headerRes := 0 }

/-- A run in which every container write fails: the first audio submission
reports a fatal error. -/
def wC3 : World :=
  { videoFiles := fun _ => none
  , audioFiles := fun n => if n = 0 then some [17] else none
  , clock := fun _ => 7
  , writeRes := fun _ => -1
  , vResidual := fun _ => 0
  , retResidual := 0
  , headerRes := 0 }

/-- A run in which every container write fails while a video unit is
available, and the residual value of the uninitialised `ret` is 0. -/
def wC6 : World :=
  { videoFiles := fun n => if n = 0 then some [0, 0, 0, 1, 65] else none
  , audioFiles := fun _ => none
  , clock := fun k => 1000 * k
  , writeRes := fun _ => -1
  , vResidual := fun _ => 0
  , retResidual := 0
  , headerRes := 0 }
theorem usToTimeBase_video (e : Nat) : usToTimeBase e 1000000 = e := by
  unfold usToTimeBase
  exact Nat.mul_div_cancel e (by norm_num)

/-- Claim C1, counterexample. One second after the anchor, the audio packet
is written with pts 1000000 (raw microseconds), while one second converted
into the audio stream's 1/44100 time base is 44100 ticks: the written
timestamp is not the elapsed time expressed in the stream's time base. -/
theorem c1_counterexample :
    streamPts Kind.audio (waf wAudioOne 0 initLoopSt).2.1 = [1000000] ∧
    streamTimeBaseDen Kind.audio = 44100 ∧
    usToTimeBase 1000000 (streamTimeBaseDen Kind.audio) = 44100 ∧
    (1000000 : Nat) ≠ 44100 := by decide

/-- Claim C1, amended: whenever units are available, both streams' packets
carry `pts = dts = elapsed` in raw microseconds; for the video stream (time
base 1/1000000) this coincides with the elapsed time expressed in the
stream's time base, but for the audio stream the raw microsecond value is
written unconverted (the rescaling call is commented out at `muxing.c:74`). -/
theorem c1_timestamps_raw_microseconds (w : World) (a : Nat) (s : LoopSt)
    (dv da : List Nat)
    (hv : w.videoFiles s.vCounter = some dv) (ha : w.audioFiles s.aCounter = some da) :
    Event.submit (videoPktOf w a s dv) ∈ (wvf w a s).2.1 ∧
    (videoPktOf w a s dv).pts = elapsedUs (w.clock s.clockCalls) a ∧
    (videoPktOf w a s dv).dts = (videoPktOf w a s dv).pts ∧
    (videoPktOf w a s dv).pts =
      usToTimeBase (elapsedUs (w.clock s.clockCalls) a) (streamTimeBaseDen Kind.video) ∧
    Event.submit (audioPktOf w a s da) ∈ (waf w a s).2.1 ∧
    (audioPktOf w a s da).pts = elapsedUs (w.clock s.clockCalls) a ∧
    (audioPktOf w a s da).dts = (audioPktOf w a s da).pts := by
  refine ⟨?_, rfl, rfl, (usToTimeBase_video _).symm, ?_, rfl, rfl⟩
  · rcases lt_or_le w.retResidual 0 with hr | hr
    · rw [wvf_some_exit w a s dv hv hr]; simp
    · rw [wvf_some_ok w a s dv hv hr]; simp
  · rcases lt_or_le (w.writeRes s.writeCalls) 0 with hw | hw
    · rw [waf_some_exit w a s da ha hw]; simp
    · rw [waf_some_ok w a s da ha hw]; simp

/-- Claim C1, witness for the amended theorem at a concrete run. -/
theorem c1_witness :
    Event.submit (videoPktOf wBoth 0 initLoopSt [0, 0, 0, 1, 103]) ∈
      (wvf wBoth 0 initLoopSt).2.1 ∧
    Event.submit (audioPktOf wBoth 0 initLoopSt [9]) ∈ (waf wBoth 0 initLoopSt).2.1 :=
  ⟨(c1_timestamps_raw_microseconds wBoth 0 initLoopSt [0, 0, 0, 1, 103] [9]
      (by decide) (by decide)).1,
   (c1_timestamps_raw_microseconds wBoth 0 initLoopSt [0, 0, 0, 1, 103] [9]
      (by decide) (by decide)).2.2.2.2.1⟩

/-- Claim C2, counterexample. A zero-length payload (too short to contain a
byte at offset 4) is classified from the residual stack byte: here the
leftover byte 0x67 makes the classifier mark the packet as a keyframe, so a
short payload is not always classified as non-key. -/
theorem c2_counterexample :
    ([] : List Nat).length < 5 ∧
    wEmptyBoth.videoFiles 0 = some [] ∧
    (wvf wEmptyBoth 0 initLoopSt).2.1 =
      [Event.pollVideo 0,
       Event.submit { kind := Kind.video, streamIndex := 0, pts := 0, dts := 0,
                      size := 0, data := [], isKey := true }] := by decide

/-- Claim C2, amended: the classifier never fails and always inspects byte 4
of the read buffer; when the payload has at least 5 bytes this is
`payload[4] & 0x0F == 0x7`, and when the payload is shorter the decision is
taken on the residual (uninitialised) buffer byte at offset 4, so a short
payload is not guaranteed to be non-key. -/
theorem c2_keyframe_rule (w : World) (a : Nat) (s : LoopSt) (contents : List Nat)
    (h : w.videoFiles s.vCounter = some contents) :
    Event.submit (videoPktOf w a s contents) ∈ (wvf w a s).2.1 ∧
    (videoPktOf w a s contents).isKey = isIdrNal (freadBuf w.vResidual contents) ∧
    (5 ≤ contents.length →
      ((videoPktOf w a s contents).isKey = true ↔
        Nat.land (contents.getD 4 0) 15 = 7)) ∧
    (contents.length < 5 →
      ((videoPktOf w a s contents).isKey = true ↔
        Nat.land (w.vResidual 4) 15 = 7)) := by
  refine ⟨?_, rfl, ?_, ?_⟩
  · rcases lt_or_le w.retResidual 0 with hr | hr
    · rw [wvf_some_exit w a s contents h hr]; simp
    · rw [wvf_some_ok w a s contents h hr]; simp
  · intro h5
    have h4 : 4 < contents.length := by omega
    have hbuf : freadBuf w.vResidual contents 4 = contents.getD 4 0 := by
      rw [freadBuf, dif_pos h4, List.getD_eq_getElem?_getD, List.getElem?_eq_getElem h4]
      rfl
    simp [videoPktOf, isIdrNal, nalType, hbuf]
  · intro h5
    have hbuf : freadBuf w.vResidual contents 4 = w.vResidual 4 := by
      rw [freadBuf, dif_neg (by omega)]
    simp [videoPktOf, isIdrNal, nalType, hbuf]

/-- Claim C2, witness for the amended theorem: the 5-byte unit
`00 00 00 01 67` is classified as a keyframe. -/
theorem c2_witness :
    Event.submit (videoPktOf wBoth 0 initLoopSt [0, 0, 0, 1, 103]) ∈
      (wvf wBoth 0 initLoopSt).2.1 ∧
    ((videoPktOf wBoth 0 initLoopSt [0, 0, 0, 1, 103]).isKey = true ↔
      Nat.land (([0, 0, 0, 1, 103] : List Nat).getD 4 0) 15 = 7) :=
  ⟨(c2_keyframe_rule wBoth 0 initLoopSt [0, 0, 0, 1, 103] (by decide)).1,
   (c2_keyframe_rule wBoth 0 initLoopSt [0, 0, 0, 1, 103] (by decide)).2.2.1
     (by decide)⟩
/-- Claim C4, counterexample. An existing but zero-length audio unit is not
treated as absent: the call returns 0 (not the exhaustion signal 1), submits
a zero-length packet, and advances the sequence counter to 1. -/
theorem c4_counterexample :
    wEmptyBoth.audioFiles 0 = some [] ∧
    (waf wEmptyBoth 0 initLoopSt).1 = FrameRes.ret 0 ∧
    ((waf wEmptyBoth 0 initLoopSt).2.2).aCounter = 1 ∧
    (waf wEmptyBoth 0 initLoopSt).2.1 =
      [Event.pollAudio 0,
       Event.submit { kind := Kind.audio, streamIndex := 1, pts := 0, dts := 0,
                      size := 0, data := [], isKey := false }] := by decide

/-- Claim C4, amended: a unit that exists but has zero length is *not*
treated as absent — for either stream the source succeeds, a zero-size
packet is submitted, and the sequence counter is advanced; only a failed
open yields the exhaustion signal. -/
theorem c4_zero_length_submitted (w : World) (a : Nat) (s : LoopSt)
    (hv : w.videoFiles s.vCounter = some [])
    (ha : w.audioFiles s.aCounter = some []) :
    (wvf w a s).1 ≠ FrameRes.ret 1 ∧
    ((wvf w a s).2.2).vCounter = s.vCounter + 1 ∧
    Event.submit (videoPktOf w a s []) ∈ (wvf w a s).2.1 ∧
    (videoPktOf w a s []).size = 0 ∧
    (waf w a s).1 ≠ FrameRes.ret 1 ∧
    ((waf w a s).2.2).aCounter = s.aCounter + 1 ∧
    Event.submit (audioPktOf w a s []) ∈ (waf w a s).2.1 ∧
    (audioPktOf w a s []).size = 0 := by
  rcases lt_or_le w.retResidual 0 with hr | hr
  · rw [wvf_some_exit w a s [] hv hr]
    rcases lt_or_le (w.writeRes s.writeCalls) 0 with hw | hw
    · rw [waf_some_exit w a s [] ha hw]
      refine ⟨by simp, rfl, by simp, rfl, by simp, rfl, by simp, rfl⟩
    · rw [waf_some_ok w a s [] ha hw]
      refine ⟨by simp, rfl, by simp, rfl, by simp, rfl, by simp, rfl⟩
  · rw [wvf_some_ok w a s [] hv hr]
    rcases lt_or_le (w.writeRes s.writeCalls) 0 with hw | hw
    · rw [waf_some_exit w a s [] ha hw]
      refine ⟨by simp, rfl, by simp, rfl, by simp, rfl, by simp, rfl⟩
    · rw [waf_some_ok w a s [] ha hw]
      refine ⟨by simp, rfl, by simp, rfl, by simp, rfl, by simp, rfl⟩

/-- Claim C4, witness for the amended theorem at a concrete run. -/
theorem c4_witness :
    (wvf wEmptyBoth 0 initLoopSt).1 ≠ FrameRes.ret 1 ∧
    ((wvf wEmptyBoth 0 initLoopSt).2.2).vCounter = 1 ∧
    (waf wEmptyBoth 0 initLoopSt).1 ≠ FrameRes.ret 1 :=
  ⟨(c4_zero_length_submitted wEmptyBoth 0 initLoopSt (by decide) (by decide)).1,
   (c4_zero_length_submitted wEmptyBoth 0 initLoopSt (by decide) (by decide)).2.1,
   (c4_zero_length_submitted wEmptyBoth 0 initLoopSt (by decide) (by decide)).2.2.2.2.1⟩

/-- Claim C5: a pull that reports exhaustion (the backing blob cannot be
opened) leaves the stream's sequence counter unchanged, and a subsequent
pull that finds data at that very counter succeeds and submits exactly that
data, advancing the counter. -/
theorem c5_exhaustion_keeps_counter (w w2 : World) (a : Nat) (s : LoopSt)
    (dv da : List Nat)
    (hv : w.videoFiles s.vCounter = none)
    (ha : w.audioFiles s.aCounter = none)
    (hv2 : w2.videoFiles s.vCounter = some dv)
    (ha2 : w2.audioFiles s.aCounter = some da)
    (hr : 0 ≤ w2.retResidual)
    (hw : ∀ n, 0 ≤ w2.writeRes n) :
    (wvf w a s).1 = FrameRes.ret 1 ∧
    ((wvf w a s).2.2).vCounter = s.vCounter ∧
    (waf w a s).1 = FrameRes.ret 1 ∧
    ((waf w a s).2.2).aCounter = s.aCounter ∧
    (wvf w2 a ((wvf w a s).2.2)).1 = FrameRes.ret 0 ∧
    Event.submit (videoPktOf w2 a ((wvf w a s).2.2) dv) ∈ (wvf w2 a ((wvf w a s).2.2)).2.1 ∧
    (videoPktOf w2 a ((wvf w a s).2.2) dv).data = dv ∧
    ((wvf w2 a ((wvf w a s).2.2)).2.2).vCounter = s.vCounter + 1 ∧
    (waf w2 a ((waf w a s).2.2)).1 = FrameRes.ret 0 ∧
    Event.submit (audioPktOf w2 a ((waf w a s).2.2) da) ∈ (waf w2 a ((waf w a s).2.2)).2.1 ∧
    (audioPktOf w2 a ((waf w a s).2.2) da).data = da ∧
    ((waf w2 a ((waf w a s).2.2)).2.2).aCounter = s.aCounter + 1 := by
  rw [wvf_none w a s hv, waf_none w a s ha]
  simp only []
  rw [wvf_some_ok w2 a ⟨s.vCounter, s.aCounter, s.clockCalls + 1, s.writeCalls⟩ dv hv2 hr,
    waf_some_ok w2 a s da ha2 (hw s.writeCalls)]
  simp [videoPktOf, audioPktOf]

/-- Claim C5, witness: both streams exhausted under `wNone`, then both
succeed when the same counters become backed under `wBoth`. -/
theorem c5_witness :
    (wvf wNone 0 initLoopSt).1 = FrameRes.ret 1 ∧
    (waf wNone 0 initLoopSt).1 = FrameRes.ret 1 ∧
    (wvf wBoth 0 ((wvf wNone 0 initLoopSt).2.2)).1 = FrameRes.ret 0 ∧
    (waf wBoth 0 ((waf wNone 0 initLoopSt).2.2)).1 = FrameRes.ret 0 :=
  ⟨(c5_exhaustion_keeps_counter wNone wBoth 0 initLoopSt [0, 0, 0, 1, 103] [9]
      (by decide) (by decide) (by decide) (by decide) (by decide) (fun n => le_refl 0)).1,
   (c5_exhaustion_keeps_counter wNone wBoth 0 initLoopSt [0, 0, 0, 1, 103] [9]
      (by decide) (by decide) (by decide) (by decide) (by decide) (fun n => le_refl 0)).2.2.1,
   (c5_exhaustion_keeps_counter wNone wBoth 0 initLoopSt [0, 0, 0, 1, 103] [9]
      (by decide) (by decide) (by decide) (by decide) (by decide) (fun n => le_refl 0)).2.2.2.2.1,
   (c5_exhaustion_keeps_counter wNone wBoth 0 initLoopSt [0, 0, 0, 1, 103] [9]
      (by decide) (by decide) (by decide) (by decide) (by decide) (fun n => le_refl 0)).2.2.2.2.2.2.2.2.1⟩

/-- Claim C6 (code bug): in `write_video_frame` the result of `write_frame`
is discarded (`muxing.c:324` never assigns `ret`), so a failing video
submission is silently absorbed. Concretely: with every container write
failing and the uninitialised `ret` residually 0, the write of the video
packet reports `-1`, yet the call returns 0, no `exit` occurs anywhere in
the run, and the run even finishes normally with a trailer. -/
theorem c6_write_error_absorbed :
    wC6.writeRes 0 = -1 ∧
    (wvf wC6 0 initLoopSt).1 = FrameRes.ret 0 ∧
    Event.submit (videoPktOf wC6 0 initLoopSt [0, 0, 0, 1, 65]) ∈
      (wvf wC6 0 initLoopSt).2.1 ∧
    Event.exitEv 1 ∉ runTrace wC6 3 ∧
    Event.trailer ∈ runTrace wC6 3 := by decide
/-- Claim C3, counterexample. A run in which the first audio submission
reports a fatal write error: the process exits via `exit(1)` at
`muxing.c:255` and the trailer write (`muxing.c:429`) is never attempted,
contradicting the claim that the trailer write and close are still attempted
before termination. -/
theorem c3_counterexample :
    wC3.writeRes 0 = -1 ∧
    (∃ p, Event.submit p ∈ runTrace wC3 2) ∧
    Event.exitEv 1 ∈ runTrace wC3 2 ∧
    Event.trailer ∉ runTrace wC3 2 := by
  refine ⟨by decide, ⟨audioPktOf wC3 7 ⟨0, 0, 2, 0⟩ [17], by decide⟩, by decide, by decide⟩

/-- Claim C3, amended: in every run exactly one header write occurs and it
precedes everything else; at most one trailer write occurs, and when it
occurs it is the final event (hence follows all submissions); but when the
run terminates through a fatal write error, the process exits immediately
and the trailer write is NOT attempted. -/
theorem c3_header_trailer (w : World) (fuel : Nat) :
    (∃ rest, runTrace w fuel = Event.header :: rest ∧ Event.header ∉ rest) ∧
    (Event.trailer ∈ runTrace w fuel →
      ∃ pre, runTrace w fuel = pre ++ [Event.trailer] ∧ Event.trailer ∉ pre) ∧
    (∀ c, Event.exitEv c ∈ runTrace w fuel → Event.trailer ∉ runTrace w fuel) := by
  by_cases hh : w.headerRes < 0
  · rw [runTrace, if_pos hh]
    refine ⟨⟨[], rfl, by simp⟩, by simp, by simp⟩
  · rw [runTrace, if_neg hh]
    set a := w.clock 0 % 2 ^ 64 with hadef
    refine ⟨⟨Event.anchorSet a :: loopTrace w a fuel true true initLoopSt, rfl, ?_⟩, ?_, ?_⟩
    · intro hmem
      rcases List.mem_cons.mp hmem with h | h
      · exact absurd h (by simp)
      · exact loop_no_header w a fuel true true initLoopSt h
    · intro ht
      have htl : Event.trailer ∈ loopTrace w a fuel true true initLoopSt := by
        rcases List.mem_cons.mp ht with h | h
        · exact absurd h (by simp)
        · rcases List.mem_cons.mp h with h2 | h2
          · exact absurd h2 (by simp)
          · exact h2
      rcases loop_term_shape w a fuel true true initLoopSt with
        ⟨pre, heq, hnt⟩ | ⟨pre, heq, hnt⟩ | hnt
      · refine ⟨Event.header :: Event.anchorSet a :: pre, by rw [heq]; simp, ?_⟩
        intro hmem
        rcases List.mem_cons.mp hmem with h | h
        · exact absurd h (by simp)
        · rcases List.mem_cons.mp h with h2 | h2
          · exact absurd h2 (by simp)
          · exact hnt.1 h2
      · rw [heq] at htl
        rcases List.mem_append.mp htl with h | h
        · exact absurd h hnt.1
        · exact absurd (List.mem_singleton.mp h) (by simp)
      · exact absurd htl hnt.1
    · intro c hc ht
      have hcl : Event.exitEv c ∈ loopTrace w a fuel true true initLoopSt := by
        rcases List.mem_cons.mp hc with h | h
        · exact absurd h (by simp)
        · rcases List.mem_cons.mp h with h2 | h2
          · exact absurd h2 (by simp)
          · exact h2
      have htl : Event.trailer ∈ loopTrace w a fuel true true initLoopSt := by
        rcases List.mem_cons.mp ht with h | h
        · exact absurd h (by simp)
        · rcases List.mem_cons.mp h with h2 | h2
          · exact absurd h2 (by simp)
          · exact h2
      rcases loop_term_shape w a fuel true true initLoopSt with
        ⟨pre, heq, hnt⟩ | ⟨pre, heq, hnt⟩ | hnt
      · rw [heq] at hcl
        rcases List.mem_append.mp hcl with h | h
        · exact hnt.2 c h
        · exact absurd (List.mem_singleton.mp h) (by simp)
      · rw [heq] at htl
        rcases List.mem_append.mp htl with h | h
        · exact hnt.1 h
        · exact absurd (List.mem_singleton.mp h) (by simp)
      · exact hnt.1 htl

/-- Claim C3, witness: on a concrete completed run the trailer is the final
event and the header the first. -/
theorem c3_witness :
    (∃ rest, runTrace wBoth 3 = Event.header :: rest ∧ Event.header ∉ rest) ∧
    (∃ pre, runTrace wBoth 3 = pre ++ [Event.trailer] ∧ Event.trailer ∉ pre) :=
  ⟨(c3_header_trailer wBoth 3).1, (c3_header_trailer wBoth 3).2.1 (by decide)⟩
/-- Claim C7: when the header write succeeds, the run's trace starts with
the header write immediately followed by the single anchor assignment
(`begin_timestamp_us`, the first clock reading), before any loop event; no
further anchor assignment ever occurs; and every submitted packet of either
stream carries `pts = dts = elapsedUs(now, anchor)` for a clock reading
taken after the anchor. -/
theorem c7_anchor_once (w : World) (fuel : Nat) (hh : 0 ≤ w.headerRes) :
    runTrace w fuel =
      Event.header :: Event.anchorSet (w.clock 0 % 2 ^ 64) ::
        loopTrace w (w.clock 0 % 2 ^ 64) fuel true true initLoopSt ∧
    (∀ t, Event.anchorSet t ∉
      loopTrace w (w.clock 0 % 2 ^ 64) fuel true true initLoopSt) ∧
    (∀ p, Event.submit p ∈ runTrace w fuel →
      ∃ k, 1 ≤ k ∧ p.pts = elapsedUs (w.clock k) (w.clock 0 % 2 ^ 64) ∧
        p.dts = p.pts) := by
  have htrace : runTrace w fuel =
      Event.header :: Event.anchorSet (w.clock 0 % 2 ^ 64) ::
        loopTrace w (w.clock 0 % 2 ^ 64) fuel true true initLoopSt := by
    rw [runTrace, if_neg (not_lt.mpr hh)]
  refine ⟨htrace, fun t => loop_no_anchor w _ fuel true true initLoopSt t, ?_⟩
  intro p hp
  rw [htrace] at hp
  have hploop : Event.submit p ∈
      loopTrace w (w.clock 0 % 2 ^ 64) fuel true true initLoopSt := by
    rcases List.mem_cons.mp hp with h | h
    · exact absurd h (by simp)
    · rcases List.mem_cons.mp h with h2 | h2
      · exact absurd h2 (by simp)
      · exact h2
  have := loop_submit_pred w (w.clock 0 % 2 ^ 64)
    (fun c q => ∃ k, c ≤ k ∧ q.pts = elapsedUs (w.clock k) (w.clock 0 % 2 ^ 64) ∧
      q.dts = q.pts)
    (fun c c2 q hc ⟨k, hk, h1, h2⟩ => ⟨k, le_trans hc hk, h1, h2⟩)
    (fun s cv => ⟨s.clockCalls, le_refl _, rfl, rfl⟩)
    (fun s ca => ⟨s.clockCalls, le_refl _, rfl, rfl⟩)
    fuel true true initLoopSt p hploop
  exact this

/-- Claim C7, witness at a concrete run. -/
theorem c7_witness :
    runTrace wBoth 1 =
      Event.header :: Event.anchorSet (wBoth.clock 0 % 2 ^ 64) ::
        loopTrace wBoth (wBoth.clock 0 % 2 ^ 64) 1 true true initLoopSt :=
  (c7_anchor_once wBoth 1 (by decide)).1
/-- Claim C8: for every run whose successive wall-clock readings are
non-decreasing (and fit in the 64-bit word the code computes in), the pts
values of the submitted packets of each stream, taken independently and in
submission order, are non-decreasing. -/
theorem c8_monotone_pts (w : World) (fuel : Nat)
    (hmono : ∀ i j, i ≤ j → w.clock i ≤ w.clock j)
    (hb : ∀ k, w.clock k < 2 ^ 64) :
    List.Chain' (fun u v => u ≤ v) (streamPts Kind.video (runTrace w fuel)) ∧
    List.Chain' (fun u v => u ≤ v) (streamPts Kind.audio (runTrace w fuel)) := by
  have key : ∀ k : Kind, List.Chain' (fun u v => u ≤ v) (streamPts k (runTrace w fuel)) := by
    intro k
    by_cases hh : w.headerRes < 0
    · rw [runTrace, if_pos hh]
      simp [streamPts, submitPkts, submitPkt]
    · rw [runTrace, if_neg hh]
      rw [streamPts_header, streamPts_anchor]
      have hall := (loop_chain w hmono hb fuel true true initLoopSt).1
      exact List.Chain'.sublist hall (streamPts_sublist k _)
  exact ⟨key Kind.video, key Kind.audio⟩

/-- Claim C8, witness at a constant clock. -/
theorem c8_witness :
    List.Chain' (fun u v => u ≤ v) (streamPts Kind.video (runTrace wAudioOne 3)) ∧
    List.Chain' (fun u v => u ≤ v) (streamPts Kind.audio (runTrace wAudioOne 3)) :=
  c8_monotone_pts wAudioOne 3 (fun i j h => le_refl 1000000) (fun k => by simp [wAudioOne])
/-- Claim C9: setup registers exactly the two streams, video then audio,
with dense container indices 0 and 1 (`st->id` likewise 0 and 1); and every
packet any run ever submits carries exactly the stream index that
registration assigned to its stream kind. -/
theorem c9_registry_stable (w : World) (fuel : Nat) :
    setupStreams.map (fun d => (d.kind, d.index, d.id)) =
      [(Kind.video, 0, 0), (Kind.audio, 1, 1)] ∧
    videoStreamIndex = 0 ∧ audioStreamIndex = 1 ∧
    ∀ p, Event.submit p ∈ runTrace w fuel →
      (setupStreams.find? (fun d => d.kind == p.kind)).map StreamDesc.index =
        some p.streamIndex := by
  refine ⟨by decide, by decide, by decide, ?_⟩
  intro p hp
  by_cases hh : w.headerRes < 0
  · rw [runTrace, if_pos hh] at hp
    simp at hp
  · rw [runTrace, if_neg hh] at hp
    have hploop : Event.submit p ∈
        loopTrace w (w.clock 0 % 2 ^ 64) fuel true true initLoopSt := by
      rcases List.mem_cons.mp hp with h | h
      · exact absurd h (by simp)
      · rcases List.mem_cons.mp h with h2 | h2
        · exact absurd h2 (by simp)
        · exact h2
    exact loop_submit_pred w (w.clock 0 % 2 ^ 64)
      (fun c q => (setupStreams.find? (fun d => d.kind == q.kind)).map StreamDesc.index =
        some q.streamIndex)
      (fun c c2 q hc h => h)
      (fun s cv => rfl)
      (fun s ca => rfl)
      fuel true true initLoopSt p hploop

/-- Claim C9, witness: the video packet submitted in a concrete run carries
the index registration returned. -/
theorem c9_witness :
    (setupStreams.find?
        (fun d => d.kind == (videoPktOf wBoth 0 initLoopSt [0, 0, 0, 1, 103]).kind)).map
      StreamDesc.index =
      some (videoPktOf wBoth 0 initLoopSt [0, 0, 0, 1, 103]).streamIndex :=
  (c9_registry_stable wBoth 2).2.2.2 _ (by decide)

/-- Claim C10: as long as the loop is still running, a tick polls the video
source regardless of the flags (in particular after earlier exhaustion
reports), and also polls the audio source in the same tick (provided the
uninitialised-`ret` accident does not exit mid-tick); and a trailer write —
loop termination — happens only after an iteration in which the video poll
and the audio poll both reported exhaustion, at the same pair of counters. -/
theorem c10_polls_not_latched (w : World) (a : Nat) (fuel : Nat) (ev ea : Bool)
    (s : LoopSt) (hrun : (ev || ea) = true)
    (hsafe : w.videoFiles s.vCounter = none ∨ 0 ≤ w.retResidual) :
    Event.pollVideo s.vCounter ∈ loopTrace w a (fuel + 1) ev ea s ∧
    Event.pollAudio s.aCounter ∈ loopTrace w a (fuel + 1) ev ea s ∧
    ∀ fuel2, Event.trailer ∈ loopTrace w a fuel2 true true s →
      ∃ s' : LoopSt, w.videoFiles s'.vCounter = none ∧
        w.audioFiles s'.aCounter = none ∧
        Event.pollVideo s'.vCounter ∈ loopTrace w a fuel2 true true s ∧
        Event.pollAudio s'.aCounter ∈ loopTrace w a fuel2 true true s := by
  refine ⟨?_, ?_, ?_⟩
  · rcases hv : w.videoFiles s.vCounter with _ | cv
    · rcases ha : w.audioFiles s.aCounter with _ | ca
      · rw [loopIter_vn_an w a fuel ev ea s hrun hv ha]; simp
      · rcases lt_or_le (w.writeRes s.writeCalls) 0 with hw | hw
        · rw [loopIter_vn_aexit w a fuel ev ea s hrun ca hv ha hw]; simp
        · rw [loopIter_vn_aok w a fuel ev ea s hrun ca hv ha hw]; simp
    · rcases lt_or_le w.retResidual 0 with hr | hr
      · rw [loopIter_vexit w a fuel ev ea s hrun cv hv hr]; simp
      · rcases ha : w.audioFiles s.aCounter with _ | ca
        · rw [loopIter_vok_an w a fuel ev ea s hrun cv hv hr ha]; simp
        · rcases lt_or_le (w.writeRes (s.writeCalls + 1)) 0 with hw | hw
          · rw [loopIter_vok_aexit w a fuel ev ea s hrun cv ca hv hr ha hw]; simp
          · rw [loopIter_vok_aok w a fuel ev ea s hrun cv ca hv hr ha hw]; simp
  · rcases hv : w.videoFiles s.vCounter with _ | cv
    · rcases ha : w.audioFiles s.aCounter with _ | ca
      · rw [loopIter_vn_an w a fuel ev ea s hrun hv ha]; simp
      · rcases lt_or_le (w.writeRes s.writeCalls) 0 with hw | hw
        · rw [loopIter_vn_aexit w a fuel ev ea s hrun ca hv ha hw]; simp
        · rw [loopIter_vn_aok w a fuel ev ea s hrun ca hv ha hw]; simp
    · have hr : 0 ≤ w.retResidual := by
        rcases hsafe with h | h
        · rw [hv] at h
          exact absurd h (by simp)
        · exact h
      rcases ha : w.audioFiles s.aCounter with _ | ca
      · rw [loopIter_vok_an w a fuel ev ea s hrun cv hv hr ha]; simp
      · rcases lt_or_le (w.writeRes (s.writeCalls + 1)) 0 with hw | hw
        · rw [loopIter_vok_aexit w a fuel ev ea s hrun cv ca hv hr ha hw]; simp
        · rw [loopIter_vok_aok w a fuel ev ea s hrun cv ca hv hr ha hw]; simp
  · intro fuel2 ht
    rcases loop_trailer_both_exhausted w a fuel2 true true s ht with ⟨hfv, _⟩ | h
    · exact absurd hfv (by simp)
    · exact h

/-- Claim C10, witness: the video source is polled again on a tick entered
with its flag already false, and a concrete empty-store run terminates with
both polls exhausted in the same iteration. -/
theorem c10_witness :
    Event.pollVideo 0 ∈ loopTrace wBoth 0 1 false true initLoopSt ∧
    Event.pollAudio 0 ∈ loopTrace wBoth 0 1 false true initLoopSt ∧
    (∃ s' : LoopSt, wNone.videoFiles s'.vCounter = none ∧
      wNone.audioFiles s'.aCounter = none ∧
      Event.pollVideo s'.vCounter ∈ loopTrace wNone 0 2 true true initLoopSt ∧
      Event.pollAudio s'.aCounter ∈ loopTrace wNone 0 2 true true initLoopSt) :=
  ⟨(c10_polls_not_latched wBoth 0 0 false true initLoopSt (by decide)
      (Or.inr (by decide))).1,
   (c10_polls_not_latched wBoth 0 0 false true initLoopSt (by decide)
      (Or.inr (by decide))).2.1,
   (c10_polls_not_latched wNone 0 0 true true initLoopSt (by decide)
      (Or.inl (by decide))).2.2 2 (by decide)⟩
